import Mathlib

/-!
Shallow embedding of dhconnelly/codecrafters-http-server-rust.

Each namespace mirrors one source file of the repository:
  `Types`       — src/types.rs       (wire codec: request parsing, statuses, responses)
  `Handlers`    — src/handlers.rs    (router / dispatch)
  `Srv`         — src/server.rs      (response serialization, connection handling, lifecycle)
  `Compression` — src/compression.rs (gzip middleware after-hook)
  `Pool`        — src/thread_pool.rs (worker pool, modelled as a transition system)

Byte streams are modelled as lists: an input stream is the list of results
of successive `BufRead::lines()` reads (`Except Unit String`, where
`Except.error` is an I/O read error and the end of the list is EOF — the
strings carry no trailing newline, exactly as `lines()` yields them), and
written output is a list of bytes (`List Nat`).
-/

deriving instance DecidableEq for Except

namespace Types

/-- `enum Method { Get, Post }` from src/types.rs. -/
inductive Method
  | get
  | post
deriving DecidableEq, Repr

/-- `impl FromStr for Method`: only "GET" and "POST" are recognized. -/
def methodFromStr (s : String) : Option Method :=
  if s = "POST" then some Method.post
  else if s = "GET" then some Method.get
  else none

/-- The version tail of the request-line regex `^(GET|POST) (/[^ ]*) HTTP/1.1$`:
after the path's trailing space the remainder of the line must be
`HTTP/1` `<any char>` `1`.  The `.` in the Rust regex is UNESCAPED, so it
matches any character except a newline — not only a literal dot. -/
def versionTailOk (cs : List Char) : Bool :=
  match cs with
  | [' ', 'H', 'T', 'T', 'P', '/', '1', c, '1'] => c ≠ '\n'
  | _ => false

/-- `parse_request_line` from src/types.rs: applies the anchored regex
`^(GET|POST) (/[^ ]*) HTTP/1.1$` and parses capture 1 as the method.
Because the path capture `(/[^ ]*)` admits no space and the version tail
starts with a literal space, the path capture always ends at the first
space after the method word, which is what this function computes. -/
def parse_request_line (line : String) : Option (Method × String) :=
  let cs := line.data
  let afterMethod : Option (Method × List Char) :=
    if cs.take 4 = "GET ".data then some (Method.get, cs.drop 4)
    else if cs.take 5 = "POST ".data then some (Method.post, cs.drop 5)
    else none
  match afterMethod with
  | none => none
  | some (m, rest) =>
    let path := rest.takeWhile (fun c => c ≠ ' ')
    let tail := rest.dropWhile (fun c => c ≠ ' ')
    match path with
    | '/' :: _ => if versionTailOk tail then some (m, String.mk path) else none
    | _ => none

/-- `parse_header` from src/types.rs: the anchored regex `^([^ ]+): (.+)$`.
The key capture is space-free, so the literal `: ` of the pattern sits at
the line's first space: the characters before that space must be the key
followed by a colon, and everything after the space is the value, which
must be non-empty and newline-free (`.` excludes newlines). -/
def parse_header (line : String) : Option (String × String) :=
  let cs := line.data
  let keyColon := cs.takeWhile (fun c => c ≠ ' ')
  match cs.dropWhile (fun c => c ≠ ' ') with
  | ' ' :: v =>
    if 2 ≤ keyColon.length ∧ keyColon.getLast? = some ':' ∧ v ≠ [] ∧ ¬ v.contains '\n'
    then some (String.mk keyColon.dropLast, String.mk v)
    else none
  | _ => none

/-- `struct Request` from src/types.rs (the body keeps the part of the
line stream the parser did not consume). -/
structure Request where
  method : Method
  path : String
  «matches» : Option (List (Option String))
  headers : List (String × String)
  body : List (Except Unit String)
deriving DecidableEq, Repr

/-- `Request::with_matches`. -/
def Request.with_matches (req : Request) (ms : List (Option String)) : Request :=
  { req with «matches» := some ms }

/-- The predicate of the `take_while` in `parse_request`:
`line.as_ref().map(|s| !s.is_empty()).unwrap_or(false)` — an `Ok` line is
taken while non-empty; an `Err` (I/O failure) stops the header section. -/
def headerTaken : Except Unit String → Bool
  | Except.ok s => s ≠ ""
  | Except.error _ => false

/-- One step of `parse_request`'s header map:
`line.map_err(|err| err.into()).and_then(parse_header)`. -/
def parseHeaderItem : Except Unit String → Except Unit (String × String)
  | Except.error _ => Except.error ()
  | Except.ok s =>
    match parse_header s with
    | none => Except.error ()
    | some kv => Except.ok kv

/-- `parse_request` from src/types.rs: one request line (EOF and I/O errors
both become `RequestParsingError`, here `Except.error ()`), then header
lines taken while non-empty `Ok` reads, each parsed by `parse_header`; the
body is the stream after the consumed lines (take_while also consumes the
first element that fails its predicate). -/
def parse_request (input : List (Except Unit String)) : Except Unit Request :=
  match input with
  | [] => Except.error ()
  | first :: rest =>
    match first with
    | Except.error _ => Except.error ()
    | Except.ok line =>
      match parse_request_line line with
      | none => Except.error ()
      | some (m, p) =>
        let hdrLines := rest.takeWhile headerTaken
        match hdrLines.mapM parseHeaderItem with
        | Except.error e => Except.error e
        | Except.ok hs =>
          Except.ok ⟨m, p, none, hs, rest.drop (hdrLines.length + 1)⟩

/-- `enum HttpStatus` from src/types.rs. -/
inductive HttpStatus
  | OK
  | Created
  | NotFound
  | BadRequest
  | ServerError
deriving DecidableEq, Repr

/-- `impl Display for HttpStatus`. -/
def statusText : HttpStatus → String
  | HttpStatus.BadRequest => "400 Bad Request"
  | HttpStatus.NotFound => "404 Not Found"
  | HttpStatus.OK => "200 OK"
  | HttpStatus.Created => "201 Created"
  | HttpStatus.ServerError => "500 Internal Server Error"

/-- `struct HttpError(pub HttpStatus)`. -/
structure HttpError where
  status : HttpStatus
deriving DecidableEq, Repr

/-- Rust's `str::to_lowercase`, on the ASCII fragment exercised by header
names (`Char.toLower` lowercases exactly the ASCII uppercase letters). -/
def lower (s : String) : String := String.mk (s.data.map Char.toLower)

/-- Case-insensitive first-match header lookup, as in `Request::get_header`
(src/types.rs): `find(|(k, _)| k.to_lowercase() == key.to_lowercase())`
followed by `.map(|(_, v)| v)`, written as the equivalent direct
recursion.  Also used below to observe the header list of a `Response`. -/
def get_header : List (String × String) → String → Option String
  | [], _ => none
  | (k0, v0) :: rest, key =>
    if lower k0 = lower key then some v0 else get_header rest key

/-- `Response::set_header` (src/types.rs) on the underlying list: overwrite
the value of the first case-insensitively matching entry (keeping that
entry's original key and position), or append `(k, v)` at the end. -/
def set_header : List (String × String) → String → String → List (String × String)
  | [], k, v => [(k, v)]
  | (k0, v0) :: rest, k, v =>
    if lower k0 = lower k then (k0, v) :: rest
    else (k0, v0) :: set_header rest k v

/-- The header list without every entry whose key equals `k`
case-insensitively: the view of "all the other headers", used to state
that a mutation leaves them untouched. -/
def eraseKeyCI (headers : List (String × String)) (k : String) : List (String × String) :=
  headers.filter (fun kv => lower kv.1 != lower k)

/-- `struct Response` from src/types.rs: status, ordered header list, and
an optional body stream (modelled as the list of its bytes). -/
structure Response where
  status : HttpStatus
  headers : List (String × String)
  body : Option (List Nat)
deriving DecidableEq, Repr

/-- Method form of `Response::set_header`. -/
def Response.set_header (r : Response) (k v : String) : Response :=
  { r with headers := Types.set_header r.headers k v }

end Types

namespace Handlers

/-- The compiled-regex model: a pattern is a matcher at one position of the
haystack — given a suffix it either matches some prefix of that suffix,
yielding the matched text and the parenthesized groups (each possibly
absent), or fails.  Rust's `Regex::captures` then searches positions left
to right (`searchFrom` below); group 0 is always the full match. -/
abbrev Regex : Type := List Char → Option (List Char × List (Option String))

/-- Unanchored leftmost search, the semantics of `Regex::captures`: try the
matcher at every position of the haystack, left to right. -/
def searchFrom (re : Regex) : List Char → Option (String × List (Option String))
  | [] => (re []).map (fun r => (String.mk r.1, r.2))
  | c :: t =>
    match re (c :: t) with
    | some r => some (String.mk r.1, r.2)
    | none => searchFrom re t

/-- `Regex::captures`: leftmost match with its capture groups. -/
def captures (re : Regex) (s : String) : Option (String × List (Option String)) :=
  searchFrom re s.data

/-- A regex that is a plain character literal (no anchors, no groups): it
matches wherever its text is a prefix of the remaining haystack. -/
def lit (p : String) : Regex :=
  fun s => if p.data.isPrefixOf s then some (p.data, []) else none

/-- `match_pat` from src/handlers.rs:
`pat.captures(str)?.iter().map(|x| x.map(|m| m.as_str().to_owned())).collect()` —
the capture iterator yields group 0 (the full match, always present)
followed by the parenthesized groups. -/
def match_pat (pat : Regex) (str : String) : Option (List (Option String)) :=
  (captures pat str).map (fun m => some m.1 :: m.2)

/-- `struct Context` from src/handlers.rs. -/
structure Context where
  working_dir : String

/-- `trait Handler` from src/handlers.rs. -/
abbrev Handler : Type :=
  Context → Types.Request → Except Types.HttpError Types.Response

/-- One entry of `Router::routes`: `(Method, regex::Regex, Box<dyn Handler>)`. -/
abbrev RouteEntry : Type := Types.Method × Regex × Handler

/-- `impl Handler for Router` from src/handlers.rs: filter the route table
by method equality, then by pattern match against the path, take the first
hit; attach its captures to the request and invoke its handler; with no
hit, fail with `HttpError(NotFound)`. -/
def routerHandle (routes : List RouteEntry) (ctx : Context) (req : Types.Request) :
    Except Types.HttpError Types.Response :=
  match ((routes.filter (fun r => r.1 == req.method)).filterMap
      (fun r => (match_pat r.2.1 req.path).map (fun caps => (caps, r.2.2)))).head? with
  | none => Except.error ⟨Types.HttpStatus.NotFound⟩
  | some (caps, h) => h ctx (req.with_matches caps)

/-- A concrete handler returning the empty OK response, used to
instantiate the router at concrete inputs. -/
def okHandler : Handler := fun _ _ => Except.ok ⟨Types.HttpStatus.OK, [], none⟩

/-- Modelled from the words of claim C2 (the specification side, to be
compared with `routerHandle`): the first-registered route whose method
equals the request's method and whose pattern matches the request's
path, paired with that pattern's full match and parenthesized groups. -/
def firstMatchingRoute (routes : List RouteEntry) (req : Types.Request) :
    Option (Handler × String × List (Option String)) :=
  routes.findSome? (fun r =>
    if r.1 = req.method then
      (captures r.2.1 req.path).map (fun m => (r.2.2, m.1, m.2))
    else none)

end Handlers

namespace Srv

/-- `struct Body` (the response-body record `ConnectionHandler::handle`
destructures): a byte stream with its declared length and content type. -/
structure Body where
  data : List Nat
  content_length : Nat
  content_type : String
deriving DecidableEq, Repr

/-- The response shape `ConnectionHandler::handle` serializes:
`Response { status, body }` with `body : Option<Body>`. -/
structure Response where
  status : Types.HttpStatus
  body : Option Body
deriving DecidableEq, Repr

/-- The bytes of an ASCII string as written to the socket. -/
def strBytes (s : String) : List Nat := s.data.map Char.toNat

/-- The header lines `ConnectionHandler::handle` emits for a response, in
the order it writes them: nothing without a body; `Content-Type` then
`Content-Length` (the body's declared length) with one. -/
def emittedHeaders (r : Response) : List (String × String) :=
  match r.body with
  | none => []
  | some b => [("Content-Type", b.content_type), ("Content-Length", toString b.content_length)]

/-- A block of `"<key>: <value>\r\n"` lines in order. -/
def headerBlock (hs : List (String × String)) : String :=
  String.join (hs.map (fun kv => kv.1 ++ ": " ++ kv.2 ++ "\r\n"))

/-- The serialization in `ConnectionHandler::handle` (src/server.rs
145-163), written as the byte list it produces: for an `Err(HttpError)`,
the status line and a blank line; for an `Ok` response, the status line,
`Content-Type` and `Content-Length` lines when a body is present, a blank
line, then the body bytes copied verbatim (`io::copy`). -/
def writeResult : Except Types.HttpError Response → List Nat
  | Except.error e =>
    strBytes ("HTTP/1.1 " ++ Types.statusText e.status ++ "\r\n") ++ strBytes "\r\n"
  | Except.ok r =>
    strBytes ("HTTP/1.1 " ++ Types.statusText r.status ++ "\r\n")
      ++ (match r.body with
          | none => []
          | some b =>
            strBytes ("Content-Type: " ++ b.content_type ++ "\r\n")
              ++ strBytes ("Content-Length: " ++ toString b.content_length ++ "\r\n"))
      ++ strBytes "\r\n"
      ++ (match r.body with | none => [] | some b => b.data)

/-- `trait Middleware`'s `apply(&self, req: &mut Request)`: a request
transformer that can fail with a `MiddlewareError`. -/
abbrev Middleware : Type := Types.Request → Except Unit Types.Request

/-- The handler the connection handler dispatches to (its responses are
the ones this src/server.rs serializes). -/
abbrev SrvHandler : Type :=
  Handlers.Context → Types.Request → Except Types.HttpError Response

/-- The error type of `ConnectionHandler::handle` (`ConnectionError`),
by cause. -/
inductive ConnErr
  | parseErr
  | middlewareErr
deriving DecidableEq, Repr

/-- Run the middleware chain in order, stopping at the first failure
(the `for f in &self.middleware { f.apply(&mut request)? }` loop). -/
def applyMiddleware : List Middleware → Types.Request → Except Unit Types.Request
  | [], req => Except.ok req
  | f :: fs, req =>
    match f req with
    | Except.error e => Except.error e
    | Except.ok r => applyMiddleware fs r

/-- `ConnectionHandler::handle` (src/server.rs 133-167): parse the request
(`?` — a parse failure returns the error having written NOTHING), run the
middleware (`?` likewise), then serialize the handler's result.  Returns
the outcome together with the bytes written to the connection. -/
def connHandle (mws : List Middleware) (h : SrvHandler) (ctx : Handlers.Context)
    (input : List (Except Unit String)) : Except ConnErr Unit × List Nat :=
  match Types.parse_request input with
  | Except.error _ => (Except.error ConnErr.parseErr, [])
  | Except.ok req =>
    match applyMiddleware mws req with
    | Except.error _ => (Except.error ConnErr.middlewareErr, [])
    | Except.ok req2 => (Except.ok (), writeResult (h ctx req2))

/-- A connection input whose request line is readable and parses but
whose first header line (no `": "` separator) is malformed. -/
def badHeaderInput : List (Except Unit String) :=
  [Except.ok "GET / HTTP/1.1", Except.ok "notaheader"]

/-- A concrete server-side handler returning the empty OK response. -/
def okSrvHandler : SrvHandler := fun _ _ => Except.ok ⟨Types.HttpStatus.OK, none⟩

/-- `enum ServerState` from src/server.rs. -/
inductive ServerState
  | Stopped
  | Running
  | Stopping
deriving DecidableEq, Repr, Fintype

/-- `Server::start` initializes the flag: `Mutex::new(ServerState::Stopped)`. -/
def initialState : ServerState := ServerState.Stopped

/-- `Server::stop`: `if *guard != Running { return; } *guard = Stopping;`. -/
def stop (s : ServerState) : ServerState :=
  if s ≠ ServerState.Running then s else ServerState.Stopping

/-- The entry guard of `Server::listen_forever`:
`if *guard != Stopped { return Ok(()); } *guard = Running;`. -/
def listenEntry (s : ServerState) : ServerState :=
  if s ≠ ServerState.Stopped then s else ServerState.Running

/-- The three mutations of the state flag in src/server.rs.  The final
`*guard = Stopped` of `listen_forever` runs only after the accept loop
observed `Stopping` and broke out; between that observation and the store
the flag cannot change (`stop` and `listenEntry` are no-ops on
`Stopping`), so the store is modelled as guarded by the observation. -/
inductive LifecycleEvent
  | stopCall
  | listenCall
  | observeStoppingExit
deriving DecidableEq, Repr, Fintype

/-- The effect of each lifecycle event on the state flag. -/
def lifecycleStep : LifecycleEvent → ServerState → ServerState
  | LifecycleEvent.stopCall, s => stop s
  | LifecycleEvent.listenCall, s => listenEntry s
  | LifecycleEvent.observeStoppingExit, s =>
    if s = ServerState.Stopping then ServerState.Stopped else s

end Srv

namespace Compression

/-- `Compression::apply_after` from src/compression.rs, with the gzip
codec abstracted as a byte-stream transform (the spec scopes the codec's
algorithm out; `gzip data` stands for reading a `GzEncoder` over `data`
to the end).  The hook sets `content-encoding: gzip` first; then, only if
a body is present, it takes the body, compresses it, sets
`content-length` to the number of compressed bytes actually produced
(`read_to_end`'s return value), and installs the compressed bytes as the
new body. -/
def apply_after (gzip : List Nat → List Nat) (resp : Types.Response) : Types.Response :=
  let r1 := resp.set_header "content-encoding" "gzip"
  match r1.body with
  | none => r1
  | some data =>
    let buf := gzip data
    let r2 := r1.set_header "content-length" (toString buf.length)
    { r2 with body := some buf }

end Compression

namespace Pool

/-- The observable state of a `ThreadPool` together with its channel:
`pending` is the FIFO contents of the `mpsc` channel, `senderOpen`
whether the producer half still exists (`sender: Option<…>` is `Some`),
`alive` how many worker threads have not yet returned, `executed` the
tasks workers have run (in the order they were taken), `submitted` every
task ever passed to `execute`, and `destroyed` whether `drop` has
completed.  Tasks are identified by numbers. -/
structure PoolState where
  pending : List Nat
  senderOpen : Bool
  alive : Nat
  executed : List Nat
  submitted : List Nat
  destroyed : Bool
deriving DecidableEq, Repr

/-- `ThreadPool::new(size)`: an empty channel, a live sender, `size`
workers blocked on `recv`, nothing executed, nothing submitted. -/
def initPool (size : Nat) : PoolState :=
  ⟨[], true, size, [], [], false⟩

/-- The interleaved small-step semantics of the pool (src/thread_pool.rs).
* `submit`: `execute` sends on the channel — possible only while the
  sender exists (it is taken at the start of `drop`).
* `run`: a live worker's `recv` returns the oldest queued task and the
  worker runs it to completion before its next `recv` (taking and
  finishing the task is one step, since a worker between `recv` and the
  task's return neither exits nor receives again).
* `close`: `drop(self.sender.take())` closes the producer half.
* `workerExit`: `recv` returns `Err` — exactly when the channel is closed
  AND drained — and the worker breaks out of its loop and returns.
* `finishDrop`: the `join` loop of `Drop` finishes; it blocks until every
  worker has returned, so it fires only with the sender closed and no
  worker alive. -/
inductive PoolStep (n : Nat) : PoolState → PoolState → Prop
  | submit (s : PoolState) (t : Nat) :
      s.senderOpen = true → s.destroyed = false →
      PoolStep n s { s with pending := s.pending ++ [t], submitted := s.submitted ++ [t] }
  | run (s : PoolState) (t : Nat) (rest : List Nat) :
      s.pending = t :: rest → 0 < s.alive →
      PoolStep n s { s with pending := rest, executed := s.executed ++ [t] }
  | close (s : PoolState) :
      PoolStep n s { s with senderOpen := false }
  | workerExit (s : PoolState) :
      s.senderOpen = false → s.pending = [] → 0 < s.alive →
      PoolStep n s { s with alive := s.alive - 1 }
  | finishDrop (s : PoolState) :
      s.senderOpen = false → s.alive = 0 →
      PoolStep n s { s with destroyed := true }

/-- The states a pool of `n` workers can reach from `ThreadPool::new(n)`. -/
def Reachable (n : Nat) (s : PoolState) : Prop :=
  Relation.ReflTransGen (PoolStep n) (initPool n) s

/-- The inductive invariant of the pool: executed and queued tasks
together are exactly the submitted ones; while the sender lives no worker
can have exited; workers only exit on a drained channel, so a dead pool
has an empty queue; and destruction implies a closed sender and no live
worker. -/
def PoolInv (n : Nat) (s : PoolState) : Prop :=
  ((s.executed : Multiset Nat) + (s.pending : Multiset Nat) = (s.submitted : Multiset Nat))
  ∧ (s.senderOpen = true → s.alive = n)
  ∧ (s.alive = 0 → s.pending = [])
  ∧ (s.destroyed = true → s.senderOpen = false ∧ s.alive = 0)

/-- The pool state at the end of a concrete run: one worker, task 7
submitted and executed, then the pool dropped (sender closed, worker
exited, join finished). -/
def droppedPool : PoolState := ⟨[], false, 0, [7], [7], true⟩

end Pool

/-- Claim C1 (code evaluation at the failing input): the request-line
regex `^(GET|POST) (/[^ ]*) HTTP/1.1$` has an UNESCAPED dot, so the line
`"GET / HTTP/1x1"` — which does not have the form
`<METHOD> <path> HTTP/1.1` — is nevertheless accepted: `parse_request`
returns a successful Request with method GET and path "/" instead of the
ParseError the claim requires. -/
theorem c1_parse_request_accepts_wildcard_version :
    Types.parse_request [Except.ok "GET / HTTP/1x1", Except.ok ""]
        = Except.ok ⟨Types.Method.get, "/", none, [], []⟩
    ∧ Types.parse_request_line "GET / HTTP/1x1" = some (Types.Method.get, "/") := by
  decide

/-- Claim C4: the server state flag only ever transitions
Stopped→Running (entering the accept loop), Running→Stopping (a `stop`
call while Running) and Stopping→Stopped (the accept loop observing
Stopping and exiting); every other `stop` or `listen_forever` call leaves
the flag unchanged, and `start` followed immediately by `stop` leaves the
flag Stopped (`start` initializes it to Stopped and `stop` is a no-op
there). -/
theorem c4_lifecycle_transitions :
    (∀ e s, Srv.lifecycleStep e s = s
        ∨ (s = Srv.ServerState.Stopped ∧ Srv.lifecycleStep e s = Srv.ServerState.Running
            ∧ e = Srv.LifecycleEvent.listenCall)
        ∨ (s = Srv.ServerState.Running ∧ Srv.lifecycleStep e s = Srv.ServerState.Stopping
            ∧ e = Srv.LifecycleEvent.stopCall)
        ∨ (s = Srv.ServerState.Stopping ∧ Srv.lifecycleStep e s = Srv.ServerState.Stopped
            ∧ e = Srv.LifecycleEvent.observeStoppingExit))
    ∧ (∀ s, s = Srv.ServerState.Running ∨ Srv.stop s = s)
    ∧ (∀ s, s = Srv.ServerState.Stopped ∨ Srv.listenEntry s = s)
    ∧ Srv.initialState = Srv.ServerState.Stopped
    ∧ Srv.stop Srv.initialState = Srv.ServerState.Stopped := by
  refine ⟨?_, ?_, ?_, rfl, rfl⟩
  · intro e s; cases e <;> cases s <;> simp [Srv.lifecycleStep, Srv.stop, Srv.listenEntry]
  · intro s; cases s <;> simp [Srv.stop]
  · intro s; cases s <;> simp [Srv.listenEntry]

/-- Claim C3: the bytes `ConnectionHandler::handle` writes for an `Ok`
response are exactly the status line `"HTTP/1.1 <status-text>\r\n"`, then
each emitted header as `"<key>: <value>\r\n"` in order, then a blank
line, then the body bytes verbatim when a body is present; with a body a
`Content-Length` header carrying the body's declared length is among the
emitted headers, and without one no header at all (in particular neither
content-length nor content-type) is emitted. -/
theorem c3_write_response_framing (r : Srv.Response) :
    Srv.writeResult (Except.ok r)
        = Srv.strBytes ("HTTP/1.1 " ++ Types.statusText r.status ++ "\r\n")
            ++ Srv.strBytes (Srv.headerBlock (Srv.emittedHeaders r))
            ++ Srv.strBytes "\r\n"
            ++ (match r.body with | none => [] | some b => b.data)
    ∧ (match r.body with
        | none => Srv.emittedHeaders r = []
        | some b => ("Content-Length", toString b.content_length) ∈ Srv.emittedHeaders r) := by
  obtain ⟨st, body⟩ := r
  cases body <;>
    simp [Srv.writeResult, Srv.emittedHeaders, Srv.headerBlock, Srv.strBytes]

/-- Looking a key up after `set_header`: the key just set (up to case)
reads back the new value; every other key reads as before.  (In the
replace branch `set_header` keeps the entry's original key, which matches
the set key case-insensitively, so case-insensitive lookup still lands on
it.) -/
theorem get_header_set_header (hs : List (String × String)) (k v k' : String) :
    Types.get_header (Types.set_header hs k v) k'
      = if Types.lower k' = Types.lower k then some v else Types.get_header hs k' := by
  induction hs with
  | nil =>
    show (if Types.lower k = Types.lower k' then some v else none)
        = if Types.lower k' = Types.lower k then some v else none
    by_cases h : Types.lower k' = Types.lower k
    · rw [if_pos h.symm, if_pos h]
    · rw [if_neg (fun hc => h hc.symm), if_neg h]
  | cons kv rest ih =>
    obtain ⟨k0, v0⟩ := kv
    by_cases h0 : Types.lower k0 = Types.lower k
    · show Types.get_header (if Types.lower k0 = Types.lower k then (k0, v) :: rest
            else (k0, v0) :: Types.set_header rest k v) k' = _
      rw [if_pos h0]
      show (if Types.lower k0 = Types.lower k' then some v else Types.get_header rest k') = _
      by_cases h' : Types.lower k' = Types.lower k
      · rw [if_pos (h0.trans h'.symm), if_pos h']
      · rw [if_neg (fun hc => h' (hc.symm.trans h0)), if_neg h']
        show _ = if Types.lower k0 = Types.lower k' then some v0 else Types.get_header rest k'
        rw [if_neg (fun hc => h' (hc.symm.trans h0))]
    · show Types.get_header (if Types.lower k0 = Types.lower k then (k0, v) :: rest
            else (k0, v0) :: Types.set_header rest k v) k' = _
      rw [if_neg h0]
      show (if Types.lower k0 = Types.lower k' then some v0
            else Types.get_header (Types.set_header rest k v) k') = _
      by_cases hk : Types.lower k0 = Types.lower k'
      · rw [if_pos hk, if_neg (fun hc => h0 (hk.trans hc))]
        show _ = if Types.lower k0 = Types.lower k' then some v0 else Types.get_header rest k'
        rw [if_pos hk]
      · rw [if_neg hk, ih]
        by_cases h' : Types.lower k' = Types.lower k
        · rw [if_pos h', if_pos h']
        · rw [if_neg h', if_neg h']
          show _ = if Types.lower k0 = Types.lower k' then some v0 else Types.get_header rest k'
          rw [if_neg hk]

/-- `set_header` only touches entries whose key matches the set key
case-insensitively: filtering those out gives the same list before and
after. -/
theorem eraseKeyCI_set_header (hs : List (String × String)) (k v : String) :
    Types.eraseKeyCI (Types.set_header hs k v) k = Types.eraseKeyCI hs k := by
  induction hs with
  | nil => simp [Types.set_header, Types.eraseKeyCI]
  | cons kv rest ih =>
    obtain ⟨k0, v0⟩ := kv
    by_cases h0 : Types.lower k0 = Types.lower k
    · show Types.eraseKeyCI (if Types.lower k0 = Types.lower k then (k0, v) :: rest
            else (k0, v0) :: Types.set_header rest k v) k = _
      rw [if_pos h0]
      simp [Types.eraseKeyCI, List.filter_cons, bne_iff_ne, h0]
    · show Types.eraseKeyCI (if Types.lower k0 = Types.lower k then (k0, v) :: rest
            else (k0, v0) :: Types.set_header rest k v) k = _
      rw [if_neg h0]
      simpa [Types.eraseKeyCI, List.filter_cons, bne_iff_ne, h0] using ih

/-- `set_header` never changes the body. -/
theorem set_header_body (r : Types.Response) (k v : String) :
    (r.set_header k v).body = r.body := rfl

/-- Claim C7: on a response that has a body, the compression after-hook
replaces the body with the gzip compression of the original body bytes,
sets the content-encoding header to gzip, and sets the content-length
header to the byte count of the compressed output. -/
theorem c7_compression_rewrites_body (gzip : List Nat → List Nat) (r : Types.Response)
    (b : List Nat) (hb : r.body = some b) :
    (Compression.apply_after gzip r).body = some (gzip b)
    ∧ Types.get_header (Compression.apply_after gzip r).headers "content-encoding"
        = some "gzip"
    ∧ Types.get_header (Compression.apply_after gzip r).headers "content-length"
        = some (toString (gzip b).length) := by
  have hne : ¬ Types.lower "content-encoding" = Types.lower "content-length" := by decide
  obtain ⟨st, hs, body⟩ := r
  cases hb
  refine ⟨rfl, ?_, ?_⟩
  · show Types.get_header
        (Types.set_header (Types.set_header hs "content-encoding" "gzip")
          "content-length" (toString (gzip b).length)) "content-encoding" = some "gzip"
    rw [get_header_set_header, if_neg hne, get_header_set_header, if_pos rfl]
  · show Types.get_header
        (Types.set_header (Types.set_header hs "content-encoding" "gzip")
          "content-length" (toString (gzip b).length)) "content-length"
        = some (toString (gzip b).length)
    rw [get_header_set_header, if_pos rfl]

/-- Witness for C7 at a concrete response and compressor: the body
`[1, 2, 3]` compressed by `fun l => 0 :: l` (4 bytes, not the original
3) is installed, content-encoding becomes gzip, and content-length
becomes "4" — the compressed count, not the pre-compression length. -/
theorem c7_witness :
    (Compression.apply_after (fun l => 0 :: l)
        ⟨Types.HttpStatus.OK, [("content-type", "text/plain"), ("content-length", "3")],
          some [1, 2, 3]⟩).body = some ((fun l => 0 :: l) [1, 2, 3])
    ∧ Types.get_header (Compression.apply_after (fun l => 0 :: l)
        ⟨Types.HttpStatus.OK, [("content-type", "text/plain"), ("content-length", "3")],
          some [1, 2, 3]⟩).headers "content-encoding" = some "gzip"
    ∧ Types.get_header (Compression.apply_after (fun l => 0 :: l)
        ⟨Types.HttpStatus.OK, [("content-type", "text/plain"), ("content-length", "3")],
          some [1, 2, 3]⟩).headers "content-length"
        = some (toString ((fun l => 0 :: l) [1, 2, 3]).length) :=
  c7_compression_rewrites_body (fun l => 0 :: l)
    ⟨Types.HttpStatus.OK, [("content-type", "text/plain"), ("content-length", "3")],
      some [1, 2, 3]⟩ [1, 2, 3] rfl

/-- Claim C10: on a response without a body, the compression after-hook
still sets the content-encoding header to gzip, keeps the body absent,
reads content-length exactly as before, and leaves every header other
than content-encoding untouched. -/
theorem c10_compression_without_body (gzip : List Nat → List Nat) (r : Types.Response)
    (hb : r.body = none) :
    (Compression.apply_after gzip r).body = none
    ∧ Types.get_header (Compression.apply_after gzip r).headers "content-encoding"
        = some "gzip"
    ∧ Types.get_header (Compression.apply_after gzip r).headers "content-length"
        = Types.get_header r.headers "content-length"
    ∧ Types.eraseKeyCI (Compression.apply_after gzip r).headers "content-encoding"
        = Types.eraseKeyCI r.headers "content-encoding" := by
  have hne : ¬ Types.lower "content-length" = Types.lower "content-encoding" := by decide
  obtain ⟨st, hs, body⟩ := r
  cases hb
  refine ⟨rfl, ?_, ?_, ?_⟩
  · show Types.get_header (Types.set_header hs "content-encoding" "gzip") "content-encoding"
        = some "gzip"
    rw [get_header_set_header, if_pos rfl]
  · show Types.get_header (Types.set_header hs "content-encoding" "gzip") "content-length"
        = Types.get_header hs "content-length"
    rw [get_header_set_header, if_neg hne]
  · show Types.eraseKeyCI (Types.set_header hs "content-encoding" "gzip") "content-encoding"
        = Types.eraseKeyCI hs "content-encoding"
    exact eraseKeyCI_set_header hs "content-encoding" "gzip"

/-- Witness for C10 at a concrete body-less response. -/
theorem c10_witness :
    (Compression.apply_after (fun l => l)
        ⟨Types.HttpStatus.Created, [("X-A", "1"), ("content-length", "5")], none⟩).body = none
    ∧ Types.get_header (Compression.apply_after (fun l => l)
        ⟨Types.HttpStatus.Created, [("X-A", "1"), ("content-length", "5")], none⟩).headers
        "content-encoding" = some "gzip"
    ∧ Types.get_header (Compression.apply_after (fun l => l)
        ⟨Types.HttpStatus.Created, [("X-A", "1"), ("content-length", "5")], none⟩).headers
        "content-length"
        = Types.get_header [("X-A", "1"), ("content-length", "5")] "content-length"
    ∧ Types.eraseKeyCI (Compression.apply_after (fun l => l)
        ⟨Types.HttpStatus.Created, [("X-A", "1"), ("content-length", "5")], none⟩).headers
        "content-encoding"
        = Types.eraseKeyCI [("X-A", "1"), ("content-length", "5")] "content-encoding" :=
  c10_compression_without_body (fun l => l)
    ⟨Types.HttpStatus.Created, [("X-A", "1"), ("content-length", "5")], none⟩ rfl

/-- Claim C5 counterexample: a connection whose request line is readable
and parses but whose header section is malformed.  The claim requires a
terminal BadRequest-class response to be surfaced to the client; the code
propagates the parse failure with `?` before anything is written, so the
connection closes with NOTHING written — in particular no
"400 Bad Request" bytes. -/
theorem c5_counterexample_header_parse_failure :
    Types.parse_request Srv.badHeaderInput = Except.error ()
    ∧ (Types.parse_request_line "GET / HTTP/1.1").isSome = true
    ∧ (Srv.connHandle [] Srv.okSrvHandler ⟨"."⟩ Srv.badHeaderInput).2 = []
    ∧ ¬ Srv.strBytes "400 Bad Request"
        <:+: (Srv.connHandle [] Srv.okSrvHandler ⟨"."⟩ Srv.badHeaderInput).2 := by
  decide

/-- Claim C5 as amended: on ANY parse failure — request line or header,
malformed or unreadable — `ConnectionHandler::handle` returns the error
to its caller having written no bytes at all to the connection; no
BadRequest-class response is ever sent. -/
theorem c5_parse_failure_closes_without_response (mws : List Srv.Middleware)
    (h : Srv.SrvHandler) (ctx : Handlers.Context) (input : List (Except Unit String))
    (hp : Types.parse_request input = Except.error ()) :
    Srv.connHandle mws h ctx input = (Except.error Srv.ConnErr.parseErr, []) := by
  unfold Srv.connHandle
  rw [hp]

/-- Witness for the amended C5 at the concrete malformed-header input. -/
theorem c5_witness :
    Srv.connHandle [] Srv.okSrvHandler ⟨"."⟩ Srv.badHeaderInput
      = (Except.error Srv.ConnErr.parseErr, []) :=
  c5_parse_failure_closes_without_response [] Srv.okSrvHandler ⟨"."⟩ Srv.badHeaderInput
    (by decide)

/-- Claim C6 counterexample: a route registered with the literal (and
unanchored) pattern "/echo" matches the path "/echo/foo" although it
matches only a proper substring of it — `match_pat` succeeds with full
match "/echo" ≠ "/echo/foo", and the router dispatches to that route's
handler instead of returning NotFound. -/
theorem c6_counterexample_unanchored_match :
    Handlers.match_pat (Handlers.lit "/echo") "/echo/foo" = some [some "/echo"]
    ∧ ("/echo" : String) ≠ "/echo/foo"
    ∧ Handlers.routerHandle [(Types.Method.get, Handlers.lit "/echo", Handlers.okHandler)]
        ⟨"."⟩ ⟨Types.Method.get, "/echo/foo", none, [], []⟩
        = Except.ok ⟨Types.HttpStatus.OK, [], none⟩ := by
  decide

/-- How `searchFrom` behaves on a literal pattern: it finds a match
exactly when the literal's characters occur contiguously somewhere in the
haystack. -/
theorem searchFrom_lit_isSome (p : String) (cs : List Char) :
    (Handlers.searchFrom (Handlers.lit p) cs).isSome = true ↔ p.data <:+: cs := by
  induction cs with
  | nil =>
    simp only [Handlers.searchFrom, Handlers.lit, List.infix_nil]
    by_cases hp : p.data.isPrefixOf ([] : List Char) = true
    · simp [hp, List.isPrefixOf_iff_prefix.mp hp |> List.prefix_nil.mp]
    · have : p.data ≠ [] := by
        intro hc
        exact hp (List.isPrefixOf_iff_prefix.mpr (hc ▸ List.prefix_rfl))
      simp [hp, this]
  | cons c t ih =>
    have hsf : Handlers.searchFrom (Handlers.lit p) (c :: t)
        = match Handlers.lit p (c :: t) with
          | some r => some (String.mk r.1, r.2)
          | none => Handlers.searchFrom (Handlers.lit p) t := rfl
    by_cases hp : p.data.isPrefixOf (c :: t) = true
    · have hl : Handlers.lit p (c :: t) = some (p.data, []) := by
        show (if p.data.isPrefixOf (c :: t) = true then some (p.data, []) else none)
            = some (p.data, [])
        rw [if_pos hp]
      rw [hsf, hl]
      simp [(List.isPrefixOf_iff_prefix.mp hp).isInfix]
    · have hl : Handlers.lit p (c :: t) = none := by
        show (if p.data.isPrefixOf (c :: t) = true then some (p.data, []) else none) = none
        rw [if_neg hp]
      have hnp : ¬ p.data <+: c :: t := fun hc => hp (List.isPrefixOf_iff_prefix.mpr hc)
      rw [hsf, hl, List.infix_cons_iff]
      simp [ih, hnp]

/-- Claim C6 as amended: `match_pat` applies a pattern by unanchored
search (the semantics of `Regex::captures`), so a pattern is matched
against every position of the path, not anchored to the whole of it: a
literal pattern hits exactly when its text occurs as a (possibly proper)
substring of the path.  Whole-path matching holds only for patterns that
carry their own `^...$` anchors, as the application's registered patterns
do. -/
theorem c6_match_pat_searches_substrings (p s : String) :
    (Handlers.match_pat (Handlers.lit p) s).isSome = true ↔ p.data <:+: s.data := by
  rw [← searchFrom_lit_isSome p s.data]
  simp [Handlers.match_pat, Handlers.captures]

/-- Claim C2: dispatch selects the first-registered route whose method
equals the request's method and whose pattern matches the request's path,
attaches the pattern's captures to the request — index 0 the full match,
later indices the parenthesized groups (each possibly absent) — and
invokes that route's handler; when no route matches both method and path
it returns `HttpError(NotFound)`. -/
theorem c2_dispatch_selects_first_matching_route (routes : List Handlers.RouteEntry)
    (ctx : Handlers.Context) (req : Types.Request) :
    Handlers.routerHandle routes ctx req =
      match Handlers.firstMatchingRoute routes req with
      | none => Except.error ⟨Types.HttpStatus.NotFound⟩
      | some (h, full, groups) => h ctx (req.with_matches (some full :: groups)) := by
  induction routes with
  | nil => rfl
  | cons r rs ih =>
    obtain ⟨m, pat, h⟩ := r
    by_cases hm : m = req.method
    · cases hcap : Handlers.captures pat req.path with
      | none =>
        simpa only [Handlers.routerHandle, Handlers.firstMatchingRoute, List.filter_cons,
          List.filterMap_cons, List.findSome?_cons, Handlers.match_pat, hcap, hm,
          beq_self_eq_true, if_true, eq_self_iff_true, Option.map_none'] using ih
      | some m0 =>
        simp only [Handlers.routerHandle, Handlers.firstMatchingRoute, List.filter_cons,
          List.filterMap_cons, List.findSome?_cons, Handlers.match_pat, hcap, hm,
          beq_self_eq_true, if_true, eq_self_iff_true, Option.map_some', List.head?_cons]
    · have hb : ((m, pat, h).1 == req.method) = false := by
        simpa using hm
      have hif : ¬ (m, pat, h).1 = req.method := hm
      simpa only [Handlers.routerHandle, Handlers.firstMatchingRoute, List.filter_cons,
        List.filterMap_cons, List.findSome?_cons, hb, if_neg hif, Bool.false_eq_true,
        if_false] using ih

/-- The header `take_while` stops at the first failed read: non-empty
`Ok` lines are taken, the `Err` element ends the section. -/
theorem takeWhile_header_lines (hs : List String) (hne : ∀ s ∈ hs, s ≠ "") (e : Unit)
    (rest : List (Except Unit String)) :
    (hs.map Except.ok ++ Except.error e :: rest).takeWhile Types.headerTaken
      = hs.map Except.ok := by
  induction hs with
  | nil => simp [Types.headerTaken]
  | cons s t ih =>
    have hs0 : s ≠ "" := hne s (by simp)
    simp [List.takeWhile_cons, Types.headerTaken, hs0,
      ih (fun x hx => hne x (by simp [hx]))]

/-- Lifting a per-line header parse over `Ok` reads: when every line
parses, the `Except`-level traversal succeeds with the same pairs. -/
theorem mapM_ok_headers (hs : List String) (kvs : List (String × String))
    (h : hs.mapM Types.parse_header = some kvs) :
    (hs.map Except.ok).mapM Types.parseHeaderItem = Except.ok kvs := by
  induction hs generalizing kvs with
  | nil =>
    simp only [List.mapM_nil, Option.pure_def, Option.some.injEq] at h
    subst h
    rfl
  | cons s t ih =>
    cases hph : Types.parse_header s with
    | none =>
      rw [List.mapM_cons, hph] at h
      simp at h
    | some kv =>
      cases hmt : t.mapM Types.parse_header with
      | none =>
        rw [List.mapM_cons, hph, hmt] at h
        simp at h
      | some kvt =>
        rw [List.mapM_cons, hph, hmt] at h
        simp only [Option.pure_def, Option.bind_eq_bind, Option.some_bind,
          Option.some.injEq] at h
        subst h
        have h1 : Types.parseHeaderItem (Except.ok s) = Except.ok kv := by
          simp [Types.parseHeaderItem, hph]
        rw [List.map_cons, List.mapM_cons, h1, ih kvt hmt]
        rfl

/-- Dropping the consumed prefix (the header lines and the element that
ended the `take_while`) leaves exactly the unread remainder. -/
theorem drop_past_terminator (hs : List String) (e : Unit)
    (rest : List (Except Unit String)) :
    (hs.map Except.ok ++ Except.error e :: rest).drop (hs.length + 1) = rest := by
  have h2 : hs.map Except.ok ++ Except.error e :: rest
      = (hs.map Except.ok ++ [Except.error e]) ++ rest := by simp
  have h3 : hs.length + 1 = (hs.map Except.ok ++ [Except.error e]).length := by simp
  rw [h2, h3, List.drop_left]

/-- Claim C9: when the request line parses and an I/O read error occurs
while reading a header line, `parse_request` does not fail: the failed
read ends the header section (the `take_while` predicate maps an `Err`
read to false) and the request is returned successfully with exactly the
headers read before the error. -/
theorem c9_io_error_ends_header_section (line : String) (m : Types.Method) (p : String)
    (hs : List String) (kvs : List (String × String)) (rest : List (Except Unit String))
    (hline : Types.parse_request_line line = some (m, p))
    (hne : ∀ s ∈ hs, s ≠ "")
    (hkv : hs.mapM Types.parse_header = some kvs) :
    Types.parse_request (Except.ok line :: (hs.map Except.ok ++ Except.error () :: rest))
      = Except.ok ⟨m, p, none, kvs, rest⟩ := by
  have htw := takeWhile_header_lines hs hne () rest
  have hmm := mapM_ok_headers hs kvs hkv
  simp only [Types.parse_request, hline, htw, hmm, List.length_map,
    drop_past_terminator hs () rest]

/-- Witness for C9: a parsed request line, one valid header, then a
failed read — the request comes back with just that header. -/
theorem c9_witness :
    Types.parse_request [Except.ok "GET / HTTP/1.1", Except.ok "Host: x", Except.error ()]
      = Except.ok ⟨Types.Method.get, "/", none, [("Host", "x")], []⟩ :=
  c9_io_error_ends_header_section "GET / HTTP/1.1" Types.Method.get "/" ["Host: x"]
    [("Host", "x")] [] (by decide) (by decide) (by decide)

/-- The invariant holds at `ThreadPool::new`. -/
theorem pool_inv_init (n : Nat) : Pool.PoolInv n (Pool.initPool n) :=
  ⟨rfl, fun _ => rfl, fun _ => rfl, fun h => absurd h Bool.false_ne_true⟩

/-- Every pool step preserves the invariant. -/
theorem pool_inv_step (n : Nat) (hn : 0 < n) (s t : Pool.PoolState)
    (hinv : Pool.PoolInv n s) (hstep : Pool.PoolStep n s t) : Pool.PoolInv n t := by
  obtain ⟨h1, h2, h3, h4⟩ := hinv
  cases hstep with
  | submit tk hopen hnd =>
    refine ⟨?_, fun ho => h2 ho, fun ha => ?_, fun hd => ?_⟩
    · show (s.executed : Multiset Nat) + ↑(s.pending ++ [tk]) = ↑(s.submitted ++ [tk])
      rw [← Multiset.coe_add, ← add_assoc, h1, Multiset.coe_add]
    · exfalso
      have ha' : s.alive = 0 := ha
      rw [h2 hopen] at ha'
      omega
    · exfalso
      have hd' : s.destroyed = true := hd
      rw [hnd] at hd'
      exact absurd hd' Bool.false_ne_true
  | run tk rest hpend halive =>
    refine ⟨?_, fun ho => h2 ho, fun ha => ?_, fun hd => ?_⟩
    · have hl : (s.executed ++ [tk]) ++ rest = s.executed ++ tk :: rest := by simp
      calc ((s.executed ++ [tk] : List Nat) : Multiset Nat) + ↑rest
          = ↑((s.executed ++ [tk]) ++ rest) := Multiset.coe_add _ _
        _ = ↑(s.executed ++ tk :: rest) := by rw [hl]
        _ = (s.executed : Multiset Nat) + ↑(tk :: rest) := (Multiset.coe_add _ _).symm
        _ = (s.executed : Multiset Nat) + ↑s.pending := by rw [hpend]
        _ = ↑s.submitted := h1
    · exfalso
      have ha' : s.alive = 0 := ha
      omega
    · have hd' : s.destroyed = true := hd
      exact absurd (h4 hd').2 (by omega)
  | close =>
    exact ⟨h1, fun ho => absurd (ho : false = true) Bool.false_ne_true, h3,
      fun hd => ⟨rfl, (h4 hd).2⟩⟩
  | workerExit hclosed hpend halive =>
    refine ⟨h1, fun ho => ?_, fun _ => hpend, fun hd => ?_⟩
    · have ho' : s.senderOpen = true := ho
      rw [hclosed] at ho'
      exact absurd ho' Bool.false_ne_true
    · have hd' : s.destroyed = true := hd
      exact absurd (h4 hd').2 (by omega)
  | finishDrop hclosed halive =>
    exact ⟨h1, fun ho => h2 ho, fun ha => h3 ha, fun _ => ⟨hclosed, halive⟩⟩

/-- The invariant holds in every reachable pool state. -/
theorem pool_inv_reachable (n : Nat) (hn : 0 < n) (s : Pool.PoolState)
    (hr : Pool.Reachable n s) : Pool.PoolInv n s := by
  induction hr with
  | refl => exact pool_inv_init n
  | tail _ hstep ih => exact pool_inv_step n hn _ _ ih hstep

/-- Claim C8: for a pool of at least one worker, in any state in which
destruction has completed, the executed tasks are exactly the submitted
ones (as multisets — each submitted task was run exactly once, none
abandoned), no worker is still alive (join-on-drop waited for each), and
the queue's producer side is closed (it was closed first, since workers
can only exit after it closes). -/
theorem c8_pool_drop_runs_each_task_once (n : Nat) (hn : 0 < n) (s : Pool.PoolState)
    (hr : Pool.Reachable n s) (hd : s.destroyed = true) :
    (s.executed : Multiset Nat) = (s.submitted : Multiset Nat)
    ∧ s.alive = 0 ∧ s.senderOpen = false := by
  obtain ⟨h1, h2, h3, h4⟩ := pool_inv_reachable n hn s hr
  obtain ⟨hso, hal⟩ := h4 hd
  refine ⟨?_, hal, hso⟩
  rw [h3 hal] at h1
  simpa using h1

/-- Witness for C8: a one-worker pool that received and ran task 7 and
was then dropped, via the explicit step sequence submit → run → close →
worker exit → join. -/
theorem c8_witness :
    (Pool.droppedPool.executed : Multiset Nat) = (Pool.droppedPool.submitted : Multiset Nat)
    ∧ Pool.droppedPool.alive = 0 ∧ Pool.droppedPool.senderOpen = false := by
  have h0 : Pool.Reachable 1 (Pool.initPool 1) := Relation.ReflTransGen.refl
  have h1 := Relation.ReflTransGen.tail h0
    (Pool.PoolStep.submit (Pool.initPool 1) 7 rfl rfl)
  have h2 := Relation.ReflTransGen.tail h1 (Pool.PoolStep.run _ 7 [] rfl (by decide))
  have h3 := Relation.ReflTransGen.tail h2 (Pool.PoolStep.close _)
  have h4 := Relation.ReflTransGen.tail h3
    (Pool.PoolStep.workerExit _ rfl rfl (by decide))
  have h5 := Relation.ReflTransGen.tail h4 (Pool.PoolStep.finishDrop _ rfl rfl)
  exact c8_pool_drop_runs_each_task_once 1 (by decide) Pool.droppedPool h5 rfl

-- Scratch checks of the parser against the source's regexes.
example : Types.parse_request_line "GET / HTTP/1.1" = some (Types.Method.get, "/") := by decide
example : Types.parse_request_line "GET / HTTP/1x1" = some (Types.Method.get, "/") := by decide
example : Types.parse_request_line "PUT / HTTP/1.1" = none := by decide
example : Types.parse_request_line "GET x HTTP/1.1" = none := by decide
example : Types.parse_header "Host: localhost" = some ("Host", "localhost") := by decide
example : Types.parse_header "Host:" = none := by decide
example : Types.parse_header "a:b: c" = some ("a:b", "c") := by decide
